import Mathlib

/-!
Verification development for the comby-python client library.

The Python sources are shallowly embedded: Python `str` values are modelled
as `List Char` (`PyStr`), Python `dict` values as association lists with the
insertion semantics of CPython dicts, fallible code as `Except`/`Option`,
and the side-effecting subprocess/HTTP layers as pure functions over
explicit descriptions of the external events (process results, probe
outcomes, spawned children).
-/

set_option maxHeartbeats 1000000

namespace CombyPython

/-- Python strings, modelled as lists of characters. -/
abbrev PyStr := List Char

/-- Convenience conversion from a Lean string literal to a `PyStr`. -/
def pyStr (s : String) : PyStr := s.toList

/-- `optOr a b` is `a` unless `a` is `none`, in which case it is `b`
(the first-defined choice on options). -/
def optOr {α : Type} (a b : Option α) : Option α :=
  match a with
  | some x => some x
  | none => b

/-- `sep.join(words)` from Python: concatenate `words` placing `sep`
between consecutive elements. -/
def joinSep (sep : PyStr) : List PyStr → PyStr
  | [] => []
  | [w] => w
  | w :: ws => w ++ sep ++ joinSep sep ws

/-- `" ".join(words)`: the form used to build every comby command line. -/
def joinSpace (words : List PyStr) : PyStr := joinSep [' '] words

/-!
## Data model (`src/comby/core.py`)
-/

/-- `Location` (core.py lines 16-42): line, column and byte offset. -/
structure Location where
  line : Int
  col : Int
  offset : Int
deriving DecidableEq, Repr

/-- `LocationRange` (core.py lines 47-68): a start and stop `Location`. -/
structure LocationRange where
  start : Location
  stop : Location
deriving DecidableEq, Repr

/-- `BoundTerm` (core.py lines 73-105): a named term bound to a source
fragment at a location range. -/
structure BoundTerm where
  term : PyStr
  location : LocationRange
  fragment : PyStr
deriving DecidableEq, Repr

/-- Insertion into a CPython dict: if the key is already present its value
is updated in place (the entry keeps its position); otherwise the new entry
is appended at the end. -/
def dictInsert {β : Type} (d : List (PyStr × β)) (k : PyStr) (v : β) :
    List (PyStr × β) :=
  match d with
  | [] => [(k, v)]
  | (k', v') :: rest =>
    if k' = k then (k', v) :: rest else (k', v') :: dictInsert rest k v

/-- `Environment` (core.py lines 109-198): an ordered mapping from term
name to `BoundTerm`, held as the underlying dict `self.__bindings`. -/
structure Environment where
  bindings : List (PyStr × BoundTerm)
deriving DecidableEq, Repr

/-- `Environment.__init__` (core.py lines 117-125): the dict comprehension
`{b.term: b for b in bindings}`, i.e. dict insertions in sequence order. -/
def Environment.init (bs : List BoundTerm) : Environment :=
  ⟨bs.foldl (fun d b => dictInsert d b.term b) []⟩

/-- `Environment.__len__` (core.py lines 162-174). -/
def Environment.len (e : Environment) : Nat := e.bindings.length

/-- `Environment.__iter__` (core.py lines 176-188): the dict's keys in
order. -/
def Environment.iterNames (e : Environment) : List PyStr :=
  e.bindings.map Prod.fst

/-- `Environment.__getitem__` (core.py lines 190-198): dict lookup;
`none` models the `KeyError` raised on a missing key. -/
def Environment.getitem (e : Environment) (term : PyStr) : Option BoundTerm :=
  e.bindings.lookup term

/-- `Match` (core.py lines 203-284): matched text, its location range and
its environment. -/
structure Match where
  matched : PyStr
  location : LocationRange
  environment : Environment
deriving DecidableEq, Repr

/-- `Match.__len__` (core.py lines 246-258): `len(self.environment)`. -/
def Match.len (m : Match) : Nat := m.environment.len

/-- `Match.__iter__` (core.py lines 260-272): `yield from self.environment`. -/
def Match.iterNames (m : Match) : List PyStr := m.environment.iterNames

/-- `Match.__getitem__` (core.py lines 274-284): `self.environment[term]`;
`none` models the `KeyError` for an unbound term. -/
def Match.getitem (m : Match) (term : PyStr) : Option BoundTerm :=
  m.environment.getitem term

/-!
## Engine JSON output shapes and decoders
(`src/comby/core.py` from_dict functions, `src/comby/binary.py` matches)

A Python dict possibly missing a key is modelled with `Option` fields:
`none` is an absent key. `Location.from_dict` and
`LocationRange.from_dict` index the dict directly (a missing key raises
`KeyError`); the call sites in `CombyBinary.matches` and
`BoundTerm.from_dict` use `.get`/`isinstance` and raise `TypeError`.
-/

/-- A decoding failure: the Python exception class that escapes. -/
inductive DecodeErr where
  | keyError
  | typeError
deriving DecidableEq, Repr

/-- The dict holding one location: keys `line`, `column`, `offset`. -/
structure LocDict where
  line : Option Int
  column : Option Int
  offset : Option Int
deriving DecidableEq, Repr

/-- The dict holding one range: keys `start` and `end`. -/
structure RangeDict where
  start : Option LocDict
  stop : Option LocDict
deriving DecidableEq, Repr

/-- A JSON value appearing in a bound-term entry: a string or a dict. -/
inductive JsonVal where
  | str (s : PyStr)
  | dict (d : RangeDict)
deriving DecidableEq, Repr

/-- The dict for one environment entry: keys `variable`, `value`, `range`. -/
structure BoundTermDict where
  var : Option JsonVal
  range : Option JsonVal
  value : Option JsonVal
deriving DecidableEq, Repr

/-- One match object of the engine's JSON output (`ConfigMatch`,
core.py lines 288-293): keys `matched`, `range`, `environment`. -/
structure ConfigMatch where
  matched : Option PyStr
  range : Option RangeDict
  environment : Option (List BoundTermDict)
deriving DecidableEq, Repr

/-- The engine's top-level JSON object (`ConfigJson`, core.py lines
296-301): key `matches` (the `uri` key is never read; the field is named
`matchList` because `matches` is a Lean keyword). -/
structure ConfigJson where
  matchList : Option (List ConfigMatch)
deriving DecidableEq, Repr

/-- `Location.from_dict` (core.py lines 28-42): indexes `line`, `column`
and `offset`; a missing key raises `KeyError`. -/
def Location.from_dict (d : LocDict) : Except DecodeErr Location :=
  match d.line, d.column, d.offset with
  | some l, some c, some o => .ok ⟨l, c, o⟩
  | _, _, _ => .error .keyError

/-- `LocationRange.from_dict` (core.py lines 53-68): indexes `start` and
`end` and decodes each as a `Location`. -/
def LocationRange.from_dict (d : RangeDict) : Except DecodeErr LocationRange :=
  match d.start with
  | none => .error .keyError
  | some sd =>
    match Location.from_dict sd with
    | .error e => .error e
    | .ok s =>
      match d.stop with
      | none => .error .keyError
      | some ed =>
        match Location.from_dict ed with
        | .error e => .error e
        | .ok stop => .ok ⟨s, stop⟩

/-- `BoundTerm.from_dict` (core.py lines 80-105): indexes `variable`,
`range` and `value` (`KeyError` when absent), checks their shapes
(`TypeError` on mismatch) and decodes the range. -/
def BoundTerm.from_dict (d : BoundTermDict) : Except DecodeErr BoundTerm :=
  match d.var, d.range, d.value with
  | none, _, _ => .error .keyError
  | some _, none, _ => .error .keyError
  | some _, some _, none => .error .keyError
  | some termV, some locV, some fragV =>
    match termV with
    | .dict _ => .error .typeError
    | .str term =>
      match locV with
      | .str _ => .error .typeError
      | .dict locD =>
        match fragV with
        | .dict _ => .error .typeError
        | .str frag =>
          match LocationRange.from_dict locD with
          | .error e => .error e
          | .ok location => .ok ⟨term, location, frag⟩

/-- The list comprehension `[BoundTerm.from_dict(bt) for bt in ts]` of
`Environment.from_dict`: decode each entry in order, the first failure
escaping. -/
def decodeBoundTermList : List BoundTermDict → Except DecodeErr (List BoundTerm)
  | [] => .ok []
  | t :: rest =>
    match BoundTerm.from_dict t with
    | .error e => .error e
    | .ok b =>
      match decodeBoundTermList rest with
      | .error e => .error e
      | .ok bs => .ok (b :: bs)

/-- `Environment.from_dict` (core.py lines 127-139): decodes each entry
then builds the environment from the list of bound terms. -/
def Environment.from_dict (ts : List BoundTermDict) : Except DecodeErr Environment :=
  match decodeBoundTermList ts with
  | .error e => .error e
  | .ok bs => .ok (Environment.init bs)

/-- The per-match decoding done inside the loop of `CombyBinary.matches`
(binary.py lines 154-181): `.get` each of `matched`, `range`,
`environment`, raising `TypeError` when `None`, then decode. The final
`Match.from_dict` isinstance checks pass by construction. -/
def decodeConfigMatch (jm : ConfigMatch) : Except DecodeErr Match :=
  match jm.matched with
  | none => .error .typeError
  | some matched =>
    match jm.range with
    | none => .error .typeError
    | some r =>
      match LocationRange.from_dict r with
      | .error e => .error e
      | .ok location =>
        match jm.environment with
        | none => .error .typeError
        | some es =>
          match Environment.from_dict es with
          | .error e => .error e
          | .ok environment => .ok ⟨matched, location, environment⟩

/-- The `for jsn_match in jsn_matches` loop of `CombyBinary.matches`,
fully drained: each element is decoded and yielded in order; the first
decoding failure escapes. -/
def decodeConfigMatchList : List ConfigMatch → Except DecodeErr (List Match)
  | [] => .ok []
  | jm :: rest =>
    match decodeConfigMatch jm with
    | .error e => .error e
    | .ok m =>
      match decodeConfigMatchList rest with
      | .error e => .error e
      | .ok ms => .ok (m :: ms)

/-- `CombyBinary.matches` after the engine call (binary.py lines 147-181):
`json.loads(out or "null")` parses empty standard output as `null`
(modelled as `none`); a `None` value yields no matches; otherwise the
`matches` key is fetched (`TypeError` when absent) and each match object
is decoded. -/
def combyMatches (jsn : Option ConfigJson) : Except DecodeErr (List Match) :=
  match jsn with
  | none => .ok []
  | some j =>
    match j.matchList with
    | none => .error .typeError
    | some ms => decodeConfigMatchList ms

/-- Whether a location dict has the expected keys. -/
def wellFormedLoc (d : LocDict) : Bool :=
  d.line.isSome && d.column.isSome && d.offset.isSome

/-- Whether a range dict has the expected keys and shape. -/
def wellFormedRange (d : RangeDict) : Bool :=
  (match d.start with | some l => wellFormedLoc l | none => false) &&
  (match d.stop with | some l => wellFormedLoc l | none => false)

/-- Whether an environment entry has the expected keys and shape. -/
def wellFormedBoundTerm (d : BoundTermDict) : Bool :=
  (match d.var with | some (.str _) => true | _ => false) &&
  (match d.range with | some (.dict r) => wellFormedRange r | _ => false) &&
  (match d.value with | some (.str _) => true | _ => false)

/-- Whether a match object has the expected keys and shape. -/
def wellFormedMatch (m : ConfigMatch) : Bool :=
  m.matched.isSome &&
  (match m.range with | some r => wellFormedRange r | none => false) &&
  (match m.environment with | some es => es.all wellFormedBoundTerm | none => false)

/-- Whether the engine's top-level object has the expected keys and shape. -/
def wellFormedConfig (j : ConfigJson) : Bool :=
  match j.matchList with
  | some ms => ms.all wellFormedMatch
  | none => false

/-- Whether a decode succeeded (no exception was raised). -/
def decodeOk {α : Type} : Except DecodeErr α → Bool
  | .ok _ => true
  | .error _ => false

/-!
## Shell escaping (`shlex.quote`) and a POSIX word splitter

`shlex.quote(s)` returns `''` for the empty string, `s` itself when every
character is an ASCII word character or one of at-sign, percent, plus,
equals, colon, comma, dot, slash, dash (the `_find_unsafe` regex with
`re.ASCII`), and otherwise wraps `s` in single quotes after replacing each
embedded single quote with the five characters of a double-quoted quote.

`shellSplit` models how a POSIX shell would split the resulting command
string back into words: blanks separate words, single quotes protect
everything up to the closing quote, double quotes protect everything but
the shell-special characters dollar, backquote and backslash (on which the
splitter conservatively gives up, returning `none`); an unquoted character
outside the shlex safe set also returns `none`. A `some` answer therefore
both stays inside the faithfully modelled fragment of the shell and gives
the word list the shell would produce.
-/

/-- A character the `_find_unsafe` regex of `shlex.quote` accepts:
an ASCII word character or one of the nine safe punctuation marks. -/
def isShlexSafe (c : Char) : Bool :=
  ('a' ≤ c && c ≤ 'z') || ('A' ≤ c && c ≤ 'Z') || ('0' ≤ c && c ≤ '9') ||
  c = '_' || c = '@' || c = '%' || c = '+' || c = '=' || c = ':' ||
  c = ',' || c = '.' || c = '/' || c = '-'

/-- `s.replace("'", "'\"'\"'")` applied to one character. -/
def shlexQuoteChar (c : Char) : PyStr :=
  if c = '\'' then ['\'', '"', '\'', '"', '\''] else [c]

/-- `shlex.quote` from the CPython standard library. -/
def shlexQuote (s : PyStr) : PyStr :=
  if s = [] then ['\'', '\'']
  else if s.all isShlexSafe then s
  else '\'' :: (s.flatMap shlexQuoteChar) ++ ['\'']

/-- The quoting state of the shell word splitter. -/
inductive QuoteState where
  | normal
  | single
  | double
deriving DecidableEq, Repr

/-- A blank that separates words (the default IFS characters). -/
def isBlank (c : Char) : Bool :=
  c = ' ' || c = '\t' || c = '\n'

/-- A character that is special to the shell inside double quotes:
dollar, backquote, backslash. -/
def isDoubleSpecial (c : Char) : Bool :=
  c = '$' || c = Char.ofNat 96 || c = '\\'

/-- One-character-at-a-time shell word splitting. `cur = none` means no
word is open; `cur = some w` is the partial word. `none` as the overall
answer means the input left the modelled fragment or a quote was left
unterminated. -/
def shellSplitAux : PyStr → QuoteState → Option PyStr → List PyStr →
    Option (List PyStr)
  | [], .normal, none, words => some words
  | [], .normal, some w, words => some (words ++ [w])
  | [], .single, _, _ => none
  | [], .double, _, _ => none
  | c :: rest, .normal, cur, words =>
    if isBlank c then
      match cur with
      | none => shellSplitAux rest .normal none words
      | some w => shellSplitAux rest .normal none (words ++ [w])
    else if c = '\'' then shellSplitAux rest .single (some (cur.getD [])) words
    else if c = '"' then shellSplitAux rest .double (some (cur.getD [])) words
    else if isShlexSafe c then
      shellSplitAux rest .normal (some (cur.getD [] ++ [c])) words
    else none
  | c :: rest, .single, cur, words =>
    if c = '\'' then shellSplitAux rest .normal cur words
    else shellSplitAux rest .single (some (cur.getD [] ++ [c])) words
  | c :: rest, .double, cur, words =>
    if c = '"' then shellSplitAux rest .normal cur words
    else if isDoubleSpecial c then none
    else shellSplitAux rest .double (some (cur.getD [] ++ [c])) words

/-- Split a command string into the words the invoked shell passes to the
engine as its argument vector. -/
def shellSplit (s : PyStr) : Option (List PyStr) :=
  shellSplitAux s .normal none []

/-!
## `json.dumps` for the substitution list

`CombyBinary.substitute` encodes `[dict(variable=k, value=v) for (k, v) in
args.items()]` with `json.dumps` under its defaults: `ensure_ascii=True`
(every character below space or above tilde becomes a `u`-escape, with a
surrogate pair beyond the basic plane) and separators comma-space and
colon-space.
-/

/-- Opening curly brace (written by code point to keep the file free of
brace characters). -/
def lbrace : Char := Char.ofNat 123

/-- Closing curly brace. -/
def rbrace : Char := Char.ofNat 125

/-- A lowercase hexadecimal digit. -/
def hexDigit (n : Nat) : Char :=
  if n < 10 then Char.ofNat ('0'.toNat + n) else Char.ofNat ('a'.toNat + (n - 10))

/-- Four lowercase hexadecimal digits, most significant first. -/
def hex4 (n : Nat) : PyStr :=
  [hexDigit (n / 4096 % 16), hexDigit (n / 256 % 16),
   hexDigit (n / 16 % 16), hexDigit (n % 16)]

/-- How `json.dumps` renders one character inside a string literal. -/
def jsonEscapeChar (c : Char) : PyStr :=
  if c = '"' then ['\\', '"']
  else if c = '\\' then ['\\', '\\']
  else if c = '\n' then ['\\', 'n']
  else if c = '\r' then ['\\', 'r']
  else if c = '\t' then ['\\', 't']
  else if c.toNat = 8 then ['\\', 'b']
  else if c.toNat = 12 then ['\\', 'f']
  else if c.toNat < 32 || c.toNat > 126 then
    if c.toNat ≤ 65535 then '\\' :: 'u' :: hex4 c.toNat
    else
      ('\\' :: 'u' :: hex4 (55296 + (c.toNat - 65536) / 1024)) ++
      ('\\' :: 'u' :: hex4 (56320 + (c.toNat - 65536) % 1024))
  else [c]

/-- A JSON string literal for `s`. -/
def jsonString (s : PyStr) : PyStr :=
  '"' :: s.flatMap jsonEscapeChar ++ ['"']

/-- The object for one substitution entry:
a brace-wrapped pair of `variable` and `value` members. -/
def jsonSubstitutionObj (kv : PyStr × PyStr) : PyStr :=
  lbrace :: (jsonString (pyStr "variable") ++ ':' :: ' ' :: jsonString kv.1 ++
    ',' :: ' ' :: jsonString (pyStr "value") ++ ':' :: ' ' :: jsonString kv.2) ++
  [rbrace]

/-- `json.dumps(substitutions)` for the substitution list built in
`CombyBinary.substitute` (binary.py lines 278-281), `args` taken in the
dict's insertion order. -/
def jsonDumpsSubstitutions (args : List (PyStr × PyStr)) : PyStr :=
  '[' :: joinSep [',', ' '] (args.map jsonSubstitutionObj) ++ [']']

/-!
## `CombyBinary` (`src/comby/binary.py`)

The subprocess layer is embedded by making the external process's
behaviour an explicit argument: `call` maps the process result to what
the method does with it, and each operation is embedded as the
*invocation* it constructs (command string plus optional standard-input
text), since everything after the command construction is `self.call`.
-/

/-- What `subprocess.run` reports for the spawned engine process. -/
structure ProcessResult where
  returncode : Int
  stdout : PyStr
  stderr : PyStr
deriving DecidableEq, Repr

/-- How `CombyBinary.call` ends: the decoded standard output, or the
Python exception that escapes. -/
inductive CallResult where
  | ok (out : PyStr)
  | calledProcessError (code : Int)
  | combyBinaryError (code : Int) (message : PyStr)
deriving DecidableEq, Repr

/-- `CombyBinary.call` (binary.py lines 64-97) applied to the result of
the spawned process. `subprocess.run` is invoked with `check=True`, so a
non-zero return code raises `subprocess.CalledProcessError` inside
`subprocess.run` itself; only afterwards does line 95 test
`returncode != 0` and raise `CombyBinaryError`. -/
def call (res : ProcessResult) : CallResult :=
  if res.returncode ≠ 0 then .calledProcessError res.returncode
  else if res.returncode ≠ 0 then .combyBinaryError res.returncode res.stderr
  else .ok res.stdout

/-- The engine invocation an operation constructs: the command string
handed to the shell (after `self.location`) and the `text` keyword passed
to `call` (the engine's standard input). -/
structure Invocation where
  cmd : PyStr
  stdinText : Option PyStr
deriving DecidableEq, Repr

/-- `if language: ... else: language = self.language` — a `None` or empty
caller-supplied language falls back to the instance default. -/
def resolveLanguage (defaultLanguage : PyStr) (language : Option PyStr) : PyStr :=
  match language with
  | some l => if l = [] then defaultLanguage else l
  | none => defaultLanguage

/-- The command words of `CombyBinary.matches` (binary.py lines 136-145). -/
def matchesCmd (language template : PyStr) : List PyStr :=
  [pyStr "-stdin", pyStr "-json-lines", pyStr "-match-only",
   pyStr "-matcher", shlexQuote language, shlexQuote template, pyStr "foo"]

/-- The invocation `CombyBinary.matches` performs (binary.py lines
136-147): the joined command words, with the source text supplied on
standard input (`self.call(cmd_s, text=source)`). -/
def matchesInvocation (defaultLanguage source template : PyStr)
    (language : Option PyStr) : Invocation :=
  ⟨joinSpace (matchesCmd (resolveLanguage defaultLanguage language) template),
   some source⟩

/-- The command words of `CombyBinary.rewrite` (binary.py lines 241-246). -/
def rewriteCmd (language matchTemplate rewriteTemplate : PyStr) (diff : Bool)
    (matchNewlineAtToplevel : Bool) : List PyStr :=
  [pyStr "-stdin", shlexQuote matchTemplate, shlexQuote rewriteTemplate] ++
  [pyStr "-matcher", shlexQuote language] ++
  [if diff then pyStr "-diff" else pyStr "-stdout"] ++
  (if matchNewlineAtToplevel then [pyStr "-match-newline-at-toplevel"] else [])

/-- `CombyBinary.rewrite` (binary.py lines 184-248) up to the engine
call. A `None` `args` defaults to the empty dict; a non-empty `args`
raises `NotImplementedError` (line 239) before any command is built, so
the error constructor carries no invocation. -/
def rewriteInvocation (defaultLanguage source matchTemplate rewriteTemplate : PyStr)
    (args : Option (List (PyStr × PyStr))) (diff : Bool)
    (language : Option PyStr) (matchNewlineAtToplevel : Bool) :
    Except Unit Invocation :=
  let lang := resolveLanguage defaultLanguage language
  let args := args.getD []
  if args ≠ [] then .error ()
  else .ok ⟨joinSpace (rewriteCmd lang matchTemplate rewriteTemplate diff
      matchNewlineAtToplevel), some source⟩

/-- The command words of `CombyBinary.substitute` (binary.py lines
284-291). -/
def substituteCmd (language template : PyStr)
    (args : List (PyStr × PyStr)) : List PyStr :=
  [pyStr "IGNORE_MATCHED_TEMPLATE", shlexQuote template,
   pyStr "-matcher", shlexQuote language,
   pyStr "-substitute-only", shlexQuote (jsonDumpsSubstitutions args)]

/-- The invocation `CombyBinary.substitute` performs (binary.py lines
278-293): `self.call(cmd_string)` passes no `text`, so the engine reads
nothing on standard input. -/
def substituteInvocation (defaultLanguage template : PyStr)
    (args : List (PyStr × PyStr)) (language : Option PyStr) : Invocation :=
  ⟨joinSpace (substituteCmd (resolveLanguage defaultLanguage language) template args),
   none⟩

/-- The post-processing of `CombyBinary.substitute` (binary.py lines
295-298) applied to the engine output: if the output ends with the
module-level `_LINE_SEPARATOR` (`os.linesep`), drop the trailing
`_LINE_SEPARATOR_LENGTH` characters, else return it unchanged. -/
def substituteTrimResult (lineSeparator result : PyStr) : PyStr :=
  if lineSeparator <:+ result then
    result.take (result.length - lineSeparator.length)
  else result

/-!
## HTTP client (`src/comby/http.py`, `src/comby.py`)
-/

/-- Python `list.pop()` run to exhaustion: `while l != []: yield l.pop()`
takes the last element first, so the yielded order is the reverse of the
list. The definition mirrors the loop (pop the last element, recurse on
the rest); it is not defined as `reverse`. -/
def popAll {α : Type} : List α → List α
  | [] => []
  | x :: xs => (x :: xs).getLast (by simp) :: popAll (x :: xs).dropLast
termination_by l => l.length
decreasing_by
  simp only [List.length_dropLast, List.length_cons]
  omega

/-- The body of `Client.matches` and `CombyHTTP.matches` after the
response arrives (comby.py lines 266-280, http.py lines 85-99):
`jsn_matches = list(reversed(response.json()))`, then a loop that pops
and decodes until the list is empty. The per-element decoder is a
parameter: the claim is about the order of the yielded sequence. -/
def httpMatchesSequence {α β : Type} (from_dict : α → β) (jsnArray : List α) :
    List β :=
  (popAll jsnArray.reverse).map from_dict

/-- What one readiness probe (`requests.get(url, timeout=time_left)`)
does: return a status code, raise `ConnectionError`, or raise `Timeout`. -/
inductive ProbeOutcome where
  | status (code : Int)
  | connError
  | timeoutExc
deriving DecidableEq, Repr

/-- How constructing the connecting client ends. `exhausted` marks a
probe trace too short for the loop (each real iteration sleeps, so time
always advances and a long enough trace always exists). -/
inductive ConnectResult where
  | connected
  | connectionFailure
  | exhausted
deriving DecidableEq, Repr

/-- The connection loop of `Client.__init__` (comby.py lines 222-238),
driven by a trace of probe outcomes, each paired with the total time
charged against `time_left` for that iteration (request duration plus
the sleeps). A 204 status sets `connected`, ending the loop in success;
any other status or a `ConnectionError` retries; a `Timeout` raises
`ConnectionFailure` at once; when `time_left` reaches zero the loop exits
and the constructor raises `ConnectionFailure`. -/
def connectLoop : Int → List (ProbeOutcome × Int) → ConnectResult
  | timeLeft, probes =>
    if timeLeft ≤ 0 then .connectionFailure
    else
      match probes with
      | [] => .exhausted
      | (p, dt) :: rest =>
        match p with
        | .status code =>
          if code = 204 then .connected else connectLoop (timeLeft - dt) rest
        | .connError => connectLoop (timeLeft - dt) rest
        | .timeoutExc => .connectionFailure

/-- How constructing `CombyHTTP` ends. Unlike `comby.py`, the module
`http.py` never imports `time`, so reaching any `time.sleep` raises
`NameError`. -/
inductive HttpConnectResult where
  | connected
  | connectionFailure
  | nameError
  | exhausted
deriving DecidableEq, Repr

/-- The connection loop of `CombyHTTP.__init__` (http.py lines 50-66).
The module has no `import time`, and `time.sleep(0.05)` on line 63 runs
unconditionally at the end of every iteration (the `ConnectionError`
branch hits `time.sleep(1.0)` on line 60 first), so every iteration that
does not raise `Timeout` raises `NameError` — including the iteration
whose probe returned 204, since the sleep precedes the loop re-test. -/
def httpConnectLoop : Int → List (ProbeOutcome × Int) → HttpConnectResult
  | timeLeft, probes =>
    if timeLeft ≤ 0 then .connectionFailure
    else
      match probes with
      | [] => .exhausted
      | (p, _) :: _ =>
        match p with
        | .status _ => .nameError
        | .connError => .nameError
        | .timeoutExc => .connectionFailure

/-!
## `ephemeral_server` (`src/comby.py` lines 332-361)
-/

/-- An observable action of the `ephemeral_server` scope on the outside
world: `os.killpg(proc.pid, signal.SIGTERM)`. -/
inductive ScopeEvent where
  | killpg (pid : Int)
deriving DecidableEq, Repr

/-- How the body of the `with` scope ends: normally, with
`ConnectionFailure` raised by `Client(url)` before the yield, or with an
exception raised by the caller's code inside the scope. -/
inductive BodyOutcome where
  | normal
  | connectionFailure
  | bodyException
deriving DecidableEq, Repr

/-- One run of the scope: the events emitted and whether an exception
propagates out. -/
structure ScopeRun where
  events : List ScopeEvent
  raised : Bool
deriving DecidableEq, Repr

/-- `ephemeral_server` (comby.py lines 332-361): `proc = None`, then in a
`try` block the server process is spawned and the client yielded; the
`finally` block signals the process group if and only if `proc` was
assigned. `spawn = none` models `subprocess.Popen` raising (the name
stays `None`); `spawn = some pid` a spawned child. -/
def ephemeralServer (spawn : Option Int) (body : BodyOutcome) : ScopeRun :=
  match spawn with
  | none => ⟨[], true⟩
  | some pid =>
    ⟨[.killpg pid],
     match body with
     | .normal => false
     | .connectionFailure => true
     | .bodyException => true⟩

/-!
## Lemmas
-/

@[simp] theorem optOr_some {α : Type} (x : α) (b : Option α) :
    optOr (some x) b = some x := rfl

@[simp] theorem optOr_none {α : Type} (b : Option α) : optOr none b = b := rfl

@[simp] theorem optOr_none_right {α : Type} (a : Option α) : optOr a none = a := by
  cases a <;> rfl

theorem dropLast_append_single {α : Type} (l : List α) (x : α) :
    (l ++ [x]).dropLast = l := by
  induction l with
  | nil => rfl
  | cons y l ih =>
    cases l with
    | nil => rfl
    | cons z t =>
      rw [show ((y :: z :: t) ++ [x]) = y :: ((z :: t) ++ [x]) from rfl]
      rw [show (z :: t) ++ [x] = z :: (t ++ [x]) from rfl]
      rw [List.dropLast_cons₂, ← List.cons_append, ih]

theorem popAll_nil {α : Type} : popAll ([] : List α) = [] := by
  simp [popAll]

theorem popAll_concat {α : Type} (ys : List α) (x : α) :
    popAll (ys ++ [x]) = x :: popAll ys := by
  cases ys with
  | nil => simp [popAll]
  | cons y ys' =>
    rw [show (y :: ys') ++ [x] = y :: (ys' ++ [x]) from rfl, popAll]
    refine congrArg₂ List.cons ?_ ?_
    · exact List.getLast_append_singleton (y :: ys')
    · exact congrArg popAll (dropLast_append_single (y :: ys') x)

theorem popAll_reverse {α : Type} (l : List α) : popAll l.reverse = l := by
  induction l with
  | nil => exact popAll_nil
  | cons x xs ih => rw [List.reverse_cons, popAll_concat, ih]

theorem optOr_assoc {α : Type} (a b c : Option α) :
    optOr (optOr a b) c = optOr a (optOr b c) := by
  cases a <;> rfl

theorem find?_append {α : Type} (l₁ l₂ : List α) (p : α → Bool) :
    (l₁ ++ l₂).find? p = optOr (l₁.find? p) (l₂.find? p) := by
  induction l₁ with
  | nil => simp
  | cons x l ih =>
    by_cases hx : p x <;> simp [List.find?_cons, hx, ih]

theorem find?_single {α : Type} (x : α) (p : α → Bool) :
    [x].find? p = if p x then some x else none := by
  by_cases hx : p x <;> simp [List.find?_cons, hx]

theorem lookup_cons {β : Type} (k' : PyStr) (v' : β) (rest : List (PyStr × β))
    (t : PyStr) :
    ((k', v') :: rest).lookup t = if t = k' then some v' else rest.lookup t := by
  by_cases h : t = k'
  · have hb : (t == k') = true := beq_iff_eq.mpr h
    simp [List.lookup, hb, h]
  · have hb : (t == k') = false := by
      rw [beq_eq_false_iff_ne]
      exact h
    simp [List.lookup, hb, h]

theorem lookup_dictInsert {β : Type} (d : List (PyStr × β)) (k t : PyStr) (v : β) :
    (dictInsert d k v).lookup t = if t = k then some v else d.lookup t := by
  induction d with
  | nil =>
    rw [show dictInsert ([] : List (PyStr × β)) k v = [(k, v)] from rfl, lookup_cons]
  | cons p rest ih =>
    obtain ⟨k', v'⟩ := p
    by_cases hk : k' = k
    · subst hk
      rw [show dictInsert ((k', v') :: rest) k' v = (k', v) :: rest by
        simp [dictInsert]]
      rw [lookup_cons, lookup_cons]
      by_cases h : t = k' <;> simp [h]
    · rw [show dictInsert ((k', v') :: rest) k v = (k', v') :: dictInsert rest k v by
        simp [dictInsert, hk]]
      rw [lookup_cons, lookup_cons, ih]
      by_cases h : t = k'
      · have htk : ¬ t = k := fun hh => hk (h ▸ hh)
        rw [if_pos h, if_neg htk, if_pos h]
      · simp [h]

theorem keys_dictInsert {β : Type} (d : List (PyStr × β)) (k : PyStr) (v : β) :
    (dictInsert d k v).map Prod.fst =
      if k ∈ d.map Prod.fst then d.map Prod.fst else d.map Prod.fst ++ [k] := by
  induction d with
  | nil => simp [dictInsert]
  | cons p rest ih =>
    obtain ⟨k', v'⟩ := p
    by_cases hk : k' = k
    · subst hk
      rw [show dictInsert ((k', v') :: rest) k' v = (k', v) :: rest by
        simp [dictInsert]]
      have hmem : k' ∈ ((k', v') :: rest).map Prod.fst := by
        rw [List.map_cons]
        exact List.mem_cons_self _ _
      rw [if_pos hmem]
      simp
    · rw [show dictInsert ((k', v') :: rest) k v = (k', v') :: dictInsert rest k v by
        simp [dictInsert, hk]]
      rw [List.map_cons, List.map_cons, ih]
      by_cases hm : k ∈ rest.map Prod.fst
      · rw [if_pos hm, if_pos (List.mem_cons_of_mem _ hm)]
      · rw [if_neg hm, if_neg (by
          intro hc
          rcases List.mem_cons.mp hc with h1 | h2
          · exact hk h1.symm
          · exact hm h2)]
        simp

/-- The dict-building fold of `Environment.__init__`. -/
def envFold (bs : List BoundTerm) (d : List (PyStr × BoundTerm)) :
    List (PyStr × BoundTerm) :=
  bs.foldl (fun d b => dictInsert d b.term b) d

theorem lookup_envFold (bs : List BoundTerm) (d : List (PyStr × BoundTerm))
    (t : PyStr) :
    (envFold bs d).lookup t =
      optOr (bs.reverse.find? (fun b => b.term == t)) (d.lookup t) := by
  induction bs generalizing d with
  | nil => simp [envFold]
  | cons b bs ih =>
    rw [show envFold (b :: bs) d = envFold bs (dictInsert d b.term b) from rfl]
    rw [ih, List.reverse_cons, find?_append, optOr_assoc, find?_single]
    rw [lookup_dictInsert]
    by_cases h : b.term = t
    · simp [h, beq_iff_eq]
    · have h' : ¬ (t = b.term) := fun hh => h hh.symm
      simp [h, h', beq_iff_eq]

theorem keys_envFold_toFinset (bs : List BoundTerm) (d : List (PyStr × BoundTerm)) :
    ((envFold bs d).map Prod.fst).toFinset =
      (d.map Prod.fst).toFinset ∪ (bs.map BoundTerm.term).toFinset := by
  induction bs generalizing d with
  | nil => simp [envFold]
  | cons b bs ih =>
    rw [show envFold (b :: bs) d = envFold bs (dictInsert d b.term b) from rfl]
    rw [ih, keys_dictInsert]
    by_cases hm : b.term ∈ d.map Prod.fst
    · rw [if_pos hm]
      ext a
      simp only [Finset.mem_union, List.mem_toFinset, List.map_cons, List.mem_cons]
      constructor
      · rintro (h | h)
        · exact Or.inl h
        · exact Or.inr (Or.inr h)
      · rintro (h | h | h)
        · exact Or.inl h
        · exact Or.inl (h ▸ hm)
        · exact Or.inr h
    · rw [if_neg hm]
      ext a
      simp only [Finset.mem_union, List.mem_toFinset, List.map_cons, List.mem_cons,
        List.mem_append]
      tauto

theorem keys_envFold_nodup (bs : List BoundTerm) (d : List (PyStr × BoundTerm))
    (h : (d.map Prod.fst).Nodup) : ((envFold bs d).map Prod.fst).Nodup := by
  induction bs generalizing d with
  | nil => exact h
  | cons b bs ih =>
    rw [show envFold (b :: bs) d = envFold bs (dictInsert d b.term b) from rfl]
    refine ih _ ?_
    rw [keys_dictInsert]
    by_cases hm : b.term ∈ d.map Prod.fst
    · rw [if_pos hm]; exact h
    · rw [if_neg hm]
      rw [List.nodup_append]
      exact ⟨h, List.nodup_singleton _, by
        intro a ha hb
        rw [List.mem_singleton] at hb
        exact hm (hb ▸ ha)⟩

theorem decodeOk_Location_from_dict (d : LocDict) :
    decodeOk (Location.from_dict d) = wellFormedLoc d := by
  obtain ⟨l, c, o⟩ := d
  cases l <;> cases c <;> cases o <;> rfl

theorem decodeOk_LocationRange_from_dict (d : RangeDict) :
    decodeOk (LocationRange.from_dict d) = wellFormedRange d := by
  obtain ⟨s, e⟩ := d
  cases s with
  | none => rfl
  | some sd =>
    cases hs : Location.from_dict sd with
    | error err =>
      have hws : wellFormedLoc sd = false := by
        rw [← decodeOk_Location_from_dict, hs]; rfl
      cases e <;> simp [LocationRange.from_dict, hs, wellFormedRange, hws, decodeOk]
    | ok sLoc =>
      have hws : wellFormedLoc sd = true := by
        rw [← decodeOk_Location_from_dict, hs]; rfl
      cases e with
      | none => simp [LocationRange.from_dict, hs, wellFormedRange, hws, decodeOk]
      | some ed =>
        cases he : Location.from_dict ed with
        | error err =>
          have hwe : wellFormedLoc ed = false := by
            rw [← decodeOk_Location_from_dict, he]; rfl
          simp [LocationRange.from_dict, hs, he, wellFormedRange, hws, hwe, decodeOk]
        | ok eLoc =>
          have hwe : wellFormedLoc ed = true := by
            rw [← decodeOk_Location_from_dict, he]; rfl
          simp [LocationRange.from_dict, hs, he, wellFormedRange, hws, hwe, decodeOk]

theorem decodeOk_BoundTerm_from_dict (d : BoundTermDict) :
    decodeOk (BoundTerm.from_dict d) = wellFormedBoundTerm d := by
  obtain ⟨tv, rv, fv⟩ := d
  cases tv with
  | none => rfl
  | some tval =>
    cases rv with
    | none => cases tval <;> rfl
    | some rval =>
      cases fv with
      | none =>
        cases tval <;> cases rval <;>
          simp [BoundTerm.from_dict, wellFormedBoundTerm, decodeOk]
      | some fval =>
        cases tval with
        | dict _ => rfl
        | str term =>
          cases rval with
          | str _ => cases fval <;> rfl
          | dict rd =>
            cases fval with
            | dict _ =>
              simp [BoundTerm.from_dict, wellFormedBoundTerm, decodeOk]
            | str frag =>
              cases hr : LocationRange.from_dict rd with
              | error err =>
                have hw : wellFormedRange rd = false := by
                  rw [← decodeOk_LocationRange_from_dict, hr]; rfl
                simp [BoundTerm.from_dict, hr, wellFormedBoundTerm, hw, decodeOk]
              | ok loc =>
                have hw : wellFormedRange rd = true := by
                  rw [← decodeOk_LocationRange_from_dict, hr]; rfl
                simp [BoundTerm.from_dict, hr, wellFormedBoundTerm, hw, decodeOk]

theorem decodeOk_decodeBoundTermList (ts : List BoundTermDict) :
    decodeOk (decodeBoundTermList ts) = ts.all wellFormedBoundTerm := by
  induction ts with
  | nil => rfl
  | cons t rest ih =>
    cases ht : BoundTerm.from_dict t with
    | error err =>
      have hw : wellFormedBoundTerm t = false := by
        rw [← decodeOk_BoundTerm_from_dict, ht]; rfl
      simp [decodeBoundTermList, ht, hw, decodeOk]
    | ok b =>
      have hw : wellFormedBoundTerm t = true := by
        rw [← decodeOk_BoundTerm_from_dict, ht]; rfl
      cases hrest : decodeBoundTermList rest with
      | error err =>
        have : (rest.all wellFormedBoundTerm) = false := by
          rw [← ih, hrest]; rfl
        simp [decodeBoundTermList, ht, hrest, hw, this, decodeOk]
      | ok bs =>
        have : (rest.all wellFormedBoundTerm) = true := by
          rw [← ih, hrest]; rfl
        simp [decodeBoundTermList, ht, hrest, hw, this, decodeOk]

theorem decodeOk_Environment_from_dict (ts : List BoundTermDict) :
    decodeOk (Environment.from_dict ts) = ts.all wellFormedBoundTerm := by
  rw [← decodeOk_decodeBoundTermList]
  cases h : decodeBoundTermList ts <;> simp [Environment.from_dict, h, decodeOk]

theorem decodeOk_decodeConfigMatch (jm : ConfigMatch) :
    decodeOk (decodeConfigMatch jm) = wellFormedMatch jm := by
  obtain ⟨m, r, es⟩ := jm
  cases m with
  | none => rfl
  | some matched =>
    cases r with
    | none => rfl
    | some rd =>
      cases hr : LocationRange.from_dict rd with
      | error err =>
        have hw : wellFormedRange rd = false := by
          rw [← decodeOk_LocationRange_from_dict, hr]; rfl
        cases es <;> simp [decodeConfigMatch, hr, wellFormedMatch, hw, decodeOk]
      | ok loc =>
        have hw : wellFormedRange rd = true := by
          rw [← decodeOk_LocationRange_from_dict, hr]; rfl
        cases es with
        | none => simp [decodeConfigMatch, hr, wellFormedMatch, hw, decodeOk]
        | some esl =>
          cases he : Environment.from_dict esl with
          | error err =>
            have hwe : esl.all wellFormedBoundTerm = false := by
              rw [← decodeOk_Environment_from_dict, he]; rfl
            simp [decodeConfigMatch, hr, he, wellFormedMatch, hw, hwe, decodeOk]
          | ok env =>
            have hwe : esl.all wellFormedBoundTerm = true := by
              rw [← decodeOk_Environment_from_dict, he]; rfl
            simp [decodeConfigMatch, hr, he, wellFormedMatch, hw, hwe, decodeOk]

theorem decodeOk_decodeConfigMatchList (ms : List ConfigMatch) :
    decodeOk (decodeConfigMatchList ms) = ms.all wellFormedMatch := by
  induction ms with
  | nil => rfl
  | cons jm rest ih =>
    cases hm : decodeConfigMatch jm with
    | error err =>
      have hw : wellFormedMatch jm = false := by
        rw [← decodeOk_decodeConfigMatch, hm]; rfl
      simp [decodeConfigMatchList, hm, hw, decodeOk]
    | ok m =>
      have hw : wellFormedMatch jm = true := by
        rw [← decodeOk_decodeConfigMatch, hm]; rfl
      cases hrest : decodeConfigMatchList rest with
      | error err =>
        have : (rest.all wellFormedMatch) = false := by
          rw [← ih, hrest]; rfl
        simp [decodeConfigMatchList, hm, hrest, hw, this, decodeOk]
      | ok rs =>
        have : (rest.all wellFormedMatch) = true := by
          rw [← ih, hrest]; rfl
        simp [decodeConfigMatchList, hm, hrest, hw, this, decodeOk]

theorem blank_not_safe (c : Char) (hb : isBlank c = true) :
    isShlexSafe c = false := by
  unfold isBlank at hb
  simp only [Bool.or_eq_true, decide_eq_true_eq] at hb
  rcases hb with (h | h) | h <;> subst h <;> decide

theorem safe_not_blank (c : Char) (hs : isShlexSafe c = true) :
    isBlank c = false := by
  cases hv : isBlank c with
  | false => rfl
  | true => rw [blank_not_safe c hv] at hs; exact absurd hs (by simp)

theorem safe_ne_squote (c : Char) (hs : isShlexSafe c = true) : ¬ c = '\'' := by
  intro h
  subst h
  exact absurd hs (by decide)

theorem safe_ne_dquote (c : Char) (hs : isShlexSafe c = true) : ¬ c = '"' := by
  intro h
  subst h
  exact absurd hs (by decide)

theorem step_normal_blank (c : Char) (hc : isBlank c = true) (rest : PyStr)
    (w : PyStr) (words : List PyStr) :
    shellSplitAux (c :: rest) .normal (some w) words
      = shellSplitAux rest .normal none (words ++ [w]) := by
  simp [shellSplitAux, hc]

theorem step_normal_squote (rest : PyStr) (cur : Option PyStr)
    (words : List PyStr) :
    shellSplitAux ('\'' :: rest) .normal cur words
      = shellSplitAux rest .single (some (cur.getD [])) words := by
  have h1 : isBlank '\'' = false := by decide
  simp [shellSplitAux, h1]

theorem step_normal_safe (c : Char) (hc : isShlexSafe c = true) (rest : PyStr)
    (cur : Option PyStr) (words : List PyStr) :
    shellSplitAux (c :: rest) .normal cur words
      = shellSplitAux rest .normal (some (cur.getD [] ++ [c])) words := by
  simp [shellSplitAux, safe_not_blank c hc, safe_ne_squote c hc,
    safe_ne_dquote c hc, hc]

theorem step_single_squote (rest : PyStr) (cur : Option PyStr)
    (words : List PyStr) :
    shellSplitAux ('\'' :: rest) .single cur words
      = shellSplitAux rest .normal cur words := by
  simp [shellSplitAux]

theorem step_single_other (c : Char) (hc : ¬ c = '\'') (rest : PyStr)
    (cur : Option PyStr) (words : List PyStr) :
    shellSplitAux (c :: rest) .single cur words
      = shellSplitAux rest .single (some (cur.getD [] ++ [c])) words := by
  simp [shellSplitAux, hc]

theorem step_normal_dquote (rest : PyStr) (cur : Option PyStr)
    (words : List PyStr) :
    shellSplitAux ('"' :: rest) .normal cur words
      = shellSplitAux rest .double (some (cur.getD [])) words := by
  have h1 : isBlank '"' = false := by decide
  have h2 : ¬ ('"' = '\'') := by decide
  simp [shellSplitAux, h1, h2]

theorem step_double_dquote (rest : PyStr) (cur : Option PyStr)
    (words : List PyStr) :
    shellSplitAux ('"' :: rest) .double cur words
      = shellSplitAux rest .normal cur words := by
  simp [shellSplitAux]

theorem step_double_other (c : Char) (hc : ¬ c = '"')
    (hs : isDoubleSpecial c = false) (rest : PyStr) (cur : Option PyStr)
    (words : List PyStr) :
    shellSplitAux (c :: rest) .double cur words
      = shellSplitAux rest .double (some (cur.getD [] ++ [c])) words := by
  simp [shellSplitAux, hc, hs]

/-- Scanning the single-quote-escaped interior of a `shlex.quote` result:
the splitter, inside single quotes, consumes the escaped form of `s`
followed by the closing quote and appends the raw `s` to the open word. -/
theorem shellSplitAux_quoted_interior (s : PyStr) :
    ∀ (rest cur : PyStr) (words : List PyStr),
    shellSplitAux (s.flatMap shlexQuoteChar ++ '\'' :: rest) .single (some cur) words
      = shellSplitAux rest .normal (some (cur ++ s)) words := by
  induction s with
  | nil =>
    intro rest cur words
    rw [show ([] : PyStr).flatMap shlexQuoteChar ++ '\'' :: rest
        = '\'' :: rest from rfl]
    rw [step_single_squote, List.append_nil]
  | cons c s ih =>
    intro rest cur words
    by_cases hc : c = '\''
    · subst hc
      rw [show ('\'' :: s).flatMap shlexQuoteChar ++ '\'' :: rest =
          '\'' :: '"' :: '\'' :: '"' :: '\''
            :: (s.flatMap shlexQuoteChar ++ '\'' :: rest) by
        simp [shlexQuoteChar]]
      rw [step_single_squote, step_normal_dquote,
        step_double_other '\'' (by decide) (by decide),
        step_double_dquote, step_normal_squote]
      simp only [Option.getD_some]
      rw [ih]
      simp
    · rw [show (c :: s).flatMap shlexQuoteChar ++ '\'' :: rest
          = c :: (s.flatMap shlexQuoteChar ++ '\'' :: rest) by
        simp [shlexQuoteChar, hc]]
      rw [step_single_other c hc]
      simp only [Option.getD_some]
      rw [ih]
      simp

/-- A run of shlex-safe characters is consumed verbatim into the open
word. -/
theorem shellSplitAux_safe_run (s : PyStr) :
    ∀ (_hs : s.all isShlexSafe = true) (rest cur : PyStr) (words : List PyStr),
    shellSplitAux (s ++ rest) .normal (some cur) words
      = shellSplitAux rest .normal (some (cur ++ s)) words := by
  induction s with
  | nil => intro _ rest cur words; simp
  | cons c s ih =>
    intro hs rest cur words
    rw [List.all_cons, Bool.and_eq_true] at hs
    rw [show (c :: s) ++ rest = c :: (s ++ rest) from rfl]
    rw [step_normal_safe c hs.1]
    simp only [Option.getD_some]
    rw [ih hs.2]
    simp

/-- Consuming one `shlex.quote`d word from word-start position: the raw
word is appended to (or opens) the current word. -/
theorem shellSplitAux_quoted_word (s : PyStr) (rest : PyStr)
    (cur : Option PyStr) (words : List PyStr) :
    shellSplitAux (shlexQuote s ++ rest) .normal cur words
      = shellSplitAux rest .normal (some (cur.getD [] ++ s)) words := by
  by_cases h0 : s = []
  · subst h0
    rw [show shlexQuote [] ++ rest = '\'' :: '\'' :: rest from rfl]
    rw [step_normal_squote, step_single_squote, List.append_nil]
  · by_cases hsafe : s.all isShlexSafe = true
    · rw [show shlexQuote s = s by simp [shlexQuote, h0, hsafe]]
      cases s with
      | nil => exact absurd rfl h0
      | cons c s' =>
        rw [List.all_cons, Bool.and_eq_true] at hsafe
        rw [show (c :: s') ++ rest = c :: (s' ++ rest) from rfl]
        rw [step_normal_safe c hsafe.1]
        rw [shellSplitAux_safe_run s' hsafe.2]
        simp
    · rw [show shlexQuote s ++ rest
          = '\'' :: (s.flatMap shlexQuoteChar ++ '\'' :: rest) by
        simp [shlexQuote, h0, hsafe]]
      rw [step_normal_squote, shellSplitAux_quoted_interior]

/-- Splitting the space-join of quoted words recovers the raw words. -/
theorem shellSplitAux_join_quoted (ws : List PyStr) :
    ∀ (_hne : ws ≠ []) (words : List PyStr),
    shellSplitAux (joinSpace (ws.map shlexQuote)) .normal none words
      = some (words ++ ws) := by
  induction ws with
  | nil => intro hne; exact absurd rfl hne
  | cons w ws ih =>
    intro _ words
    cases ws with
    | nil =>
      rw [show joinSpace ([w].map shlexQuote) = shlexQuote w by
        simp [joinSpace, joinSep]]
      rw [← List.append_nil (shlexQuote w), shellSplitAux_quoted_word]
      simp [shellSplitAux]
    | cons w' ws' =>
      rw [show joinSpace ((w :: w' :: ws').map shlexQuote)
          = shlexQuote w ++ (' ' :: joinSpace ((w' :: ws').map shlexQuote)) by
        simp [joinSpace, joinSep]]
      rw [shellSplitAux_quoted_word]
      rw [step_normal_blank ' ' (by decide)]
      rw [ih (by simp)]
      simp

/-- Splitting the space-join of quoted words recovers exactly the raw
words: `shlex.quote` is a correct escaping for the modelled shell. -/
theorem shellSplit_join_quoted (ws : List PyStr) (hne : ws ≠ []) :
    shellSplit (joinSpace (ws.map shlexQuote)) = some ws := by
  rw [shellSplit, shellSplitAux_join_quoted ws hne]
  simp

theorem substituteTrimResult_of_suffix (sep out : PyStr) (h : sep <:+ out) :
    substituteTrimResult sep out ++ sep = out := by
  rw [substituteTrimResult, if_pos h]
  obtain ⟨t, ht⟩ := h
  rw [← ht, List.length_append, Nat.add_sub_cancel, List.take_left]

theorem substituteTrimResult_of_not_suffix (sep out : PyStr) (h : ¬ sep <:+ out) :
    substituteTrimResult sep out = out := by
  rw [substituteTrimResult, if_neg h]

theorem connectLoop_nil (t : Int) :
    connectLoop t [] =
      if t ≤ 0 then ConnectResult.connectionFailure else ConnectResult.exhausted := by
  simp only [connectLoop]

theorem connectLoop_cons_status (t code dt : Int)
    (rest : List (ProbeOutcome × Int)) (ht : ¬ t ≤ 0) :
    connectLoop t ((ProbeOutcome.status code, dt) :: rest) =
      if code = 204 then ConnectResult.connected
      else connectLoop (t - dt) rest := by
  rw [connectLoop.eq_def]
  dsimp only
  rw [if_neg ht]

theorem connectLoop_cons_connError (t dt : Int)
    (rest : List (ProbeOutcome × Int)) (ht : ¬ t ≤ 0) :
    connectLoop t ((ProbeOutcome.connError, dt) :: rest)
      = connectLoop (t - dt) rest := by
  rw [connectLoop.eq_def]
  dsimp only
  rw [if_neg ht]

theorem connectLoop_cons_timeout (t dt : Int)
    (rest : List (ProbeOutcome × Int)) (ht : ¬ t ≤ 0) :
    connectLoop t ((ProbeOutcome.timeoutExc, dt) :: rest)
      = ConnectResult.connectionFailure := by
  rw [connectLoop.eq_def]
  dsimp only
  rw [if_neg ht]

theorem connectLoop_timeLeft_nonpos (t : Int)
    (probes : List (ProbeOutcome × Int)) (ht : t ≤ 0) :
    connectLoop t probes = ConnectResult.connectionFailure := by
  rw [connectLoop.eq_def]
  dsimp only
  rw [if_pos ht]

/-- In the comby.py Client loop (which does import `time`), success
implies some probe returned the ready status 204. -/
theorem connectLoop_connected_has_ready (probes : List (ProbeOutcome × Int)) :
    ∀ (t : Int), connectLoop t probes = ConnectResult.connected →
      ∃ pd ∈ probes, pd.1 = ProbeOutcome.status 204 := by
  induction probes with
  | nil =>
    intro t h
    rw [connectLoop_nil] at h
    by_cases ht : t ≤ 0 <;> simp [ht] at h
  | cons pd rest ih =>
    intro t h
    obtain ⟨p, dt⟩ := pd
    by_cases ht : t ≤ 0
    · rw [connectLoop_timeLeft_nonpos t _ ht] at h
      exact absurd h (by simp)
    · cases p with
      | status code =>
        by_cases hc : code = 204
        · subst hc
          exact ⟨(ProbeOutcome.status 204, dt), by simp, rfl⟩
        · rw [connectLoop_cons_status t code dt rest ht, if_neg hc] at h
          obtain ⟨q, hq, hq2⟩ := ih (t - dt) h
          exact ⟨q, List.mem_cons_of_mem _ hq, hq2⟩
      | connError =>
        rw [connectLoop_cons_connError t dt rest ht] at h
        obtain ⟨q, hq, hq2⟩ := ih (t - dt) h
        exact ⟨q, List.mem_cons_of_mem _ hq, hq2⟩
      | timeoutExc =>
        rw [connectLoop_cons_timeout t dt rest ht] at h
        exact absurd h (by simp)

/-- In the comby.py Client loop, if no probe in a sufficiently long
trace returns 204, the constructor raises ConnectionFailure. -/
theorem connectLoop_no_ready_fails (probes : List (ProbeOutcome × Int)) :
    ∀ (t : Int),
    (∀ pd ∈ probes, pd.1 ≠ ProbeOutcome.status 204) →
    connectLoop t probes ≠ ConnectResult.exhausted →
    connectLoop t probes = ConnectResult.connectionFailure := by
  induction probes with
  | nil =>
    intro t _ hne
    rw [connectLoop_nil]
    rw [connectLoop_nil] at hne
    by_cases ht : t ≤ 0
    · rw [if_pos ht]
    · rw [if_neg ht] at hne
      exact absurd rfl hne
  | cons pd rest ih =>
    intro t hnp hne
    obtain ⟨p, dt⟩ := pd
    by_cases ht : t ≤ 0
    · exact connectLoop_timeLeft_nonpos t _ ht
    · cases p with
      | status code =>
        have hc : code ≠ 204 := by
          intro hc
          subst hc
          exact hnp (ProbeOutcome.status 204, dt) (by simp) rfl
        rw [connectLoop_cons_status t code dt rest ht, if_neg hc]
        rw [connectLoop_cons_status t code dt rest ht, if_neg hc] at hne
        exact ih (t - dt) (fun q hq => hnp q (List.mem_cons_of_mem _ hq)) hne
      | connError =>
        rw [connectLoop_cons_connError t dt rest ht]
        rw [connectLoop_cons_connError t dt rest ht] at hne
        exact ih (t - dt) (fun q hq => hnp q (List.mem_cons_of_mem _ hq)) hne
      | timeoutExc => exact connectLoop_cons_timeout t dt rest ht

/-- `CombyBinary.call` never raises `CombyBinaryError`: the `check=True`
`subprocess.run` raises `CalledProcessError` first on every non-zero
exit, leaving line 96 of binary.py unreachable. -/
theorem call_nonzero_is_CalledProcessError (res : ProcessResult)
    (h : res.returncode ≠ 0) :
    call res = CallResult.calledProcessError res.returncode := by
  rw [call, if_pos h]

/-!
## Claim theorems
-/

/-- C1: the claim says every non-zero engine exit raises `CombyBinaryError`
with the exit code and captured stderr, and that no other exception type
escapes. The code refutes it: `subprocess.run` is invoked with
`check=True`, so a non-zero return code raises
`subprocess.CalledProcessError` inside `subprocess.run`, before the
`raise CombyBinaryError` on line 96 of binary.py — that line is dead
code. Evaluated here at a process exiting with code 1 and non-empty
stderr: `call` ends in `CalledProcessError`, not `CombyBinaryError`. -/
theorem call_nonzero_exit_raises_CalledProcessError_not_CombyBinaryError :
    call ⟨1, [], pyStr "engine failed"⟩ = CallResult.calledProcessError 1
    ∧ ∀ code msg, call ⟨1, [], pyStr "engine failed"⟩
        ≠ CallResult.combyBinaryError code msg := by
  refine ⟨by decide, ?_⟩
  intro code msg
  rw [call_nonzero_is_CalledProcessError ⟨1, [], pyStr "engine failed"⟩ (by decide)]
  simp

/-- C2: calling `CombyBinary.rewrite` with a non-empty `args` mapping
raises `NotImplementedError` immediately: the result is the error
outcome, carrying no engine invocation (no command string is built and
`self.call` is never reached). -/
theorem rewrite_nonempty_args_raises_unsupported
    (defaultLanguage source matchTemplate rewriteTemplate : PyStr)
    (args : List (PyStr × PyStr)) (diff : Bool) (language : Option PyStr)
    (matchNewlineAtToplevel : Bool) (h : args ≠ []) :
    rewriteInvocation defaultLanguage source matchTemplate rewriteTemplate
      (some args) diff language matchNewlineAtToplevel = Except.error () := by
  rw [rewriteInvocation]
  simp only [Option.getD_some]
  rw [if_pos h]

/-- Witness for C2 at a concrete non-empty `args` mapping. -/
theorem rewrite_nonempty_args_raises_unsupported_witness :
    rewriteInvocation (pyStr ".c") (pyStr "x") (pyStr "a") (pyStr "b")
      (some [(pyStr "1", pyStr "v")]) false none false = Except.error () :=
  rewrite_nonempty_args_raises_unsupported (pyStr ".c") (pyStr "x") (pyStr "a")
    (pyStr "b") [(pyStr "1", pyStr "v")] false none false (by decide)

/-- C3: `CombyBinary.substitute` strips exactly one trailing line
separator from the engine output when one is present (appending the
separator back restores the output, so exactly one copy was removed even
when the output ends with several), and returns the output unchanged
otherwise. -/
theorem substitute_strips_exactly_one_trailing_separator
    (lineSeparator out : PyStr) :
    (lineSeparator <:+ out →
      substituteTrimResult lineSeparator out ++ lineSeparator = out)
    ∧ (¬ lineSeparator <:+ out →
      substituteTrimResult lineSeparator out = out) :=
  ⟨substituteTrimResult_of_suffix lineSeparator out,
   substituteTrimResult_of_not_suffix lineSeparator out⟩

/-- C4: the `Environment` built from a sequence of bound terms has
unique keys: lookup of a term name returns the last binding in the
sequence carrying that name (`none` exactly when no binding carries it —
duplicates overwrite and never raise), and its length is the number of
distinct term names in the sequence. -/
theorem environment_init_unique_keys_last_write_wins (bs : List BoundTerm) :
    (∀ t : PyStr, (Environment.init bs).getitem t
        = bs.reverse.find? (fun b => b.term == t))
    ∧ (Environment.init bs).len = (bs.map BoundTerm.term).toFinset.card := by
  constructor
  · intro t
    show (envFold bs []).lookup t = _
    rw [lookup_envFold]
    simp [List.lookup]
  · show (envFold bs []).length = _
    have hnodup : ((envFold bs []).map Prod.fst).Nodup :=
      keys_envFold_nodup bs [] (by simp)
    calc (envFold bs []).length
        = ((envFold bs []).map Prod.fst).length := (List.length_map _ _).symm
      _ = ((envFold bs []).map Prod.fst).toFinset.card :=
          (List.toFinset_card_of_nodup hnodup).symm
      _ = (bs.map BoundTerm.term).toFinset.card := by
          rw [keys_envFold_toFinset bs []]
          simp

/-- C5: the HTTP client's matches iterator reverses the engine's JSON
array into a list and then repeatedly pops and decodes from its end;
the decoded matches come out in exactly the forward order of the
original engine-reported array. -/
theorem http_matches_reverse_pop_is_forward_order {α β : Type}
    (from_dict : α → β) (jsnArray : List α) :
    httpMatchesSequence from_dict jsnArray = jsnArray.map from_dict := by
  rw [httpMatchesSequence, popAll_reverse]

/-- C6: `CombyBinary.matches` yields an empty sequence and raises no
error when the engine output parses as `null` (as empty standard output
does) or reports an empty match list; and for present output, decoding
raises an error exactly when the output lacks the expected keys/shape. -/
theorem matches_empty_on_no_match_error_iff_malformed :
    combyMatches none = Except.ok []
    ∧ combyMatches (some ⟨some []⟩) = Except.ok []
    ∧ ∀ cfg : ConfigJson, decodeOk (combyMatches (some cfg)) = wellFormedConfig cfg := by
  refine ⟨rfl, rfl, ?_⟩
  intro cfg
  obtain ⟨ms⟩ := cfg
  cases ms with
  | none => rfl
  | some l =>
    show decodeOk (decodeConfigMatchList l) = l.all wellFormedMatch
    exact decodeOk_decodeConfigMatchList l

/-- C7: the claim says the HTTP-backed client's constructor succeeds
when a status probe returns 204 within the window and otherwise raises
`ConnectionFailure` after retrying. `CombyHTTP.__init__` in http.py
cannot do either on the retry path: the module never imports `time`, so
the unconditional `time.sleep(0.05)` ending every loop iteration raises
`NameError` — here evaluated with 30 seconds remaining and the first
probe returning the ready status 204, where the claim requires success.
(The identical loop in comby.py's `Client`, which does import `time`,
behaves as claimed: see `connectLoop_connected_has_ready` and
`connectLoop_no_ready_fails`.) -/
theorem httpConnect_ready_probe_raises_NameError :
    httpConnectLoop 30 [(ProbeOutcome.status 204, 1)]
      = HttpConnectResult.nameError := by
  rw [httpConnectLoop.eq_def]
  dsimp only
  rw [if_neg (by decide : ¬ (30 : Int) ≤ 0)]

/-- C8: for each of the three operations, the constructed command line
is exactly the space-join of fixed flags and the `shlex.quote` forms of
the caller-supplied strings (template, rewrite template, language, and
the JSON-encoded substitution array): splitting the command string by
shell rules recovers those raw strings as argument words, while the
source text is passed on standard input (and not on the command line),
`rewrite` with empty `args` included. -/
theorem binary_commands_embed_shell_quoted_strings
    (defaultLanguage source template matchTemplate rewriteTemplate lang : PyStr)
    (args : List (PyStr × PyStr)) (diff matchNewlineAtToplevel : Bool)
    (hl : lang ≠ []) :
    (shellSplit (matchesInvocation defaultLanguage source template (some lang)).cmd
        = some [pyStr "-stdin", pyStr "-json-lines", pyStr "-match-only",
            pyStr "-matcher", lang, template, pyStr "foo"]
      ∧ (matchesInvocation defaultLanguage source template (some lang)).stdinText
        = some source)
    ∧ (rewriteInvocation defaultLanguage source matchTemplate rewriteTemplate
          none diff (some lang) matchNewlineAtToplevel
        = Except.ok ⟨joinSpace (rewriteCmd lang matchTemplate rewriteTemplate
            diff matchNewlineAtToplevel), some source⟩
      ∧ shellSplit (joinSpace (rewriteCmd lang matchTemplate rewriteTemplate
            diff matchNewlineAtToplevel))
        = some ([pyStr "-stdin", matchTemplate, rewriteTemplate,
            pyStr "-matcher", lang,
            if diff then pyStr "-diff" else pyStr "-stdout"]
            ++ (if matchNewlineAtToplevel
                then [pyStr "-match-newline-at-toplevel"] else [])))
    ∧ (shellSplit (substituteInvocation defaultLanguage template args (some lang)).cmd
        = some [pyStr "IGNORE_MATCHED_TEMPLATE", template, pyStr "-matcher",
            lang, pyStr "-substitute-only", jsonDumpsSubstitutions args]
      ∧ (substituteInvocation defaultLanguage template args (some lang)).stdinText
        = none) := by
  have hrl : resolveLanguage defaultLanguage (some lang) = lang := by
    rw [resolveLanguage, if_neg hl]
  have q1 : shlexQuote (pyStr "-stdin") = pyStr "-stdin" := by decide
  have q2 : shlexQuote (pyStr "-json-lines") = pyStr "-json-lines" := by decide
  have q3 : shlexQuote (pyStr "-match-only") = pyStr "-match-only" := by decide
  have q4 : shlexQuote (pyStr "-matcher") = pyStr "-matcher" := by decide
  have q5 : shlexQuote (pyStr "foo") = pyStr "foo" := by decide
  have q6 : shlexQuote (pyStr "-diff") = pyStr "-diff" := by decide
  have q7 : shlexQuote (pyStr "-stdout") = pyStr "-stdout" := by decide
  have q8 : shlexQuote (pyStr "-match-newline-at-toplevel")
      = pyStr "-match-newline-at-toplevel" := by decide
  have q9 : shlexQuote (pyStr "IGNORE_MATCHED_TEMPLATE")
      = pyStr "IGNORE_MATCHED_TEMPLATE" := by decide
  have q10 : shlexQuote (pyStr "-substitute-only") = pyStr "-substitute-only" := by
    decide
  refine ⟨⟨?_, ?_⟩, ⟨?_, ?_⟩, ⟨?_, ?_⟩⟩
  · show shellSplit (joinSpace (matchesCmd
        (resolveLanguage defaultLanguage (some lang)) template)) = _
    rw [hrl]
    have hm : matchesCmd lang template
        = ([pyStr "-stdin", pyStr "-json-lines", pyStr "-match-only",
            pyStr "-matcher", lang, template, pyStr "foo"]).map shlexQuote := by
      simp [matchesCmd, q1, q2, q3, q4, q5]
    rw [hm, shellSplit_join_quoted _ (by simp)]
  · rfl
  · rw [rewriteInvocation]
    simp only [Option.getD_none, hrl]
    rw [if_neg (by simp)]
  · have hr : rewriteCmd lang matchTemplate rewriteTemplate diff
        matchNewlineAtToplevel
        = ([pyStr "-stdin", matchTemplate, rewriteTemplate, pyStr "-matcher",
            lang, if diff then pyStr "-diff" else pyStr "-stdout"]
            ++ (if matchNewlineAtToplevel
                then [pyStr "-match-newline-at-toplevel"] else [])).map
            shlexQuote := by
      cases diff <;> cases matchNewlineAtToplevel <;>
        simp [rewriteCmd, q1, q4, q6, q7, q8]
    rw [hr, shellSplit_join_quoted _ (by simp)]
  · show shellSplit (joinSpace (substituteCmd
        (resolveLanguage defaultLanguage (some lang)) template args)) = _
    rw [hrl]
    have hs : substituteCmd lang template args
        = ([pyStr "IGNORE_MATCHED_TEMPLATE", template, pyStr "-matcher", lang,
            pyStr "-substitute-only", jsonDumpsSubstitutions args]).map
            shlexQuote := by
      simp [substituteCmd, q4, q9, q10]
    rw [hs, shellSplit_join_quoted _ (by simp)]
  · rfl

/-- Witness for C8 at concrete inputs (language `.py`, a template with
shell-special characters). -/
theorem binary_commands_embed_shell_quoted_strings_witness :
    shellSplit (matchesInvocation (pyStr ".c") (pyStr "print(1)")
        (pyStr "print(:[1])") (some (pyStr ".py"))).cmd
      = some [pyStr "-stdin", pyStr "-json-lines", pyStr "-match-only",
          pyStr "-matcher", pyStr ".py", pyStr "print(:[1])", pyStr "foo"] :=
  (binary_commands_embed_shell_quoted_strings (pyStr ".c") (pyStr "print(1)")
    (pyStr "print(:[1])") (pyStr "a") (pyStr "b") (pyStr ".py") []
    false false (by decide)).1.1

/-- C9: whenever the `ephemeral_server` scope spawned its child, scope
exit signals the child's process group exactly once — the event list is
exactly one `killpg`, on the normal path and on every exceptional path
(`Client` raising `ConnectionFailure` included); when spawning failed,
no signal is sent. -/
theorem ephemeral_server_signals_process_group_once (spawn : Option Int)
    (body : BodyOutcome) :
    (ephemeralServer spawn body).events
      = spawn.elim [] (fun pid => [ScopeEvent.killpg pid]) := by
  cases spawn <;> cases body <;> rfl

/-- C10: a `Match` behaves as a read-only mapping delegating exactly to
its own environment: its length equals the environment's, iteration
yields precisely the environment's term names in the same order, and
item lookup agrees with the environment's for every term name —
including the missing-key (`none`, i.e. `KeyError`) case. -/
theorem match_mapping_delegates_to_environment (m : Match) :
    m.len = m.environment.len
    ∧ m.iterNames = m.environment.iterNames
    ∧ ∀ t : PyStr, m.getitem t = m.environment.getitem t :=
  ⟨rfl, rfl, fun _ => rfl⟩

end CombyPython
